import Mathlib

/-!
Verification of the trivia game round engine (`trivia/game.py`).

The Python source is a single-owner asyncio state machine.  We embed it
shallowly: the mutable `TriviaGame` object becomes an explicit `GameState`
record, wall-clock times become rationals, and every coroutine is collapsed
into (a) the synchronous prefix it runs up to its first `asyncio.sleep`,
executed at the step that scheduled it, and (b) the continuation after the
sleep, executed at the step where the timer fires.  Outstanding sleeping
tasks are modelled explicitly as a list of pending `Timer` records so that
cancellation and stale fires can be reasoned about; `self.timeout` is the
stored handle (a timer id).  Broadcasts become an output list.

The persistence collaborator (`trivia/models.py`: `Round.new`,
`Round.solved_by`, `Round.end_round`, `Player.has_perm`) is not part of
`src/`; those operations are modelled from the spec where marked.
-/

/-- The four phases of `TriviaGame` (`STATE_IDLE`, `STATE_QUESTION`,
`STATE_WAITING`, `STATE_LOCKED`). -/
inductive Phase where
  | idle
  | question
  | waiting
  | locked
deriving DecidableEq, Repr

/-- Constant `ROUND_TIME = 45.0`. -/
def ROUND_TIME : ℚ := 45

/-- Constant `WAIT_TIME = 10.0`. -/
def WAIT_TIME : ℚ := 10

/-- Constant `WAIT_TIME_EXTRA = 7.0` (defined in the source, never used). -/
def WAIT_TIME_EXTRA : ℚ := 7

/-- Constant `INACTIVITY_TIMEOUT = ROUND_TIME * 4`. -/
def INACTIVITY_TIMEOUT : ℚ := ROUND_TIME * 4

/-- Constant `STREAK_STEPS = 5`. -/
def STREAK_STEPS : ℕ := 5

/-- Constant `HINT_TIMING = 10.0`. -/
def HINT_TIMING : ℚ := 10

/-- Constant `HINT_COOLDOWN = 2.5`. -/
def HINT_COOLDOWN : ℚ := 5 / 2

/-- Constant `HINT_MAX = 3`. -/
def HINT_MAX : ℕ := 3

/-- A round record held by the persistence collaborator and referenced by
`self.round`.  Fields mirror what the game reads and what the spec lists for
the round record (id, start time, solved flag, solver, time taken, hints,
streak, ended).  The question text itself lives in the external question
collaborator and is not modelled. -/
structure RoundRec where
  id : ℕ
  startTime : ℚ
  solved : Bool
  solverId : Option ℕ
  solverName : Option String
  timeTaken : ℚ
  hintsUsed : ℕ
  streakVal : ℕ
  ended : Bool
deriving DecidableEq, Repr

/-- Modelled from the spec: `Round.new(startTime)` of the persistence
collaborator (`trivia/models.py`, absent from `src/`) creates a fresh round
record when a round starts.  Per the spec the record carries its own start
time, and the round-start scenario ("round starts at t=0 ... solve recorded
with timeTaken approximately 10") fixes that start to the moment the round
begins, which is also the moment `start_new_round` sets `timer_start`.  The
`startHint` argument the game passes (`self.round_start`) is the chaining
hint the collaborator may use; its internal use is not in `src/` and is not
modelled. -/
def Round.new (id : ℕ) (_startHint : Option ℚ) (now : ℚ) : RoundRec :=
  { id := id
    startTime := now
    solved := false
    solverId := none
    solverName := none
    timeTaken := 0
    hintsUsed := 0
    streakVal := 0
    ended := false }

/-- Modelled from the spec: `round.solvedBy(player, roundTime, hints, streak)`
of the persistence collaborator (absent from `src/`): records the solver and
the time taken, `now - roundStart` per the spec transition table, together
with the hints used and the streak count.  The `totalTime` argument
(`ROUND_TIME` at the call site) is used by the collaborator for scoring,
which is not modelled. -/
def RoundRec.solved_by (r : RoundRec) (pid : ℕ) (pname : String)
    (_totalTime : ℚ) (hints : ℕ) (streak : ℕ) (now : ℚ) : RoundRec :=
  { r with
    solved := true
    solverId := some pid
    solverName := some pname
    timeTaken := now - r.startTime
    hintsUsed := hints
    streakVal := streak }

/-- Modelled from the spec: `round.endRound()` of the persistence
collaborator (absent from `src/`): marks the record ended ("immutable once
ended"). -/
def RoundRec.end_round (r : RoundRec) : RoundRec :=
  { r with ended := true }

/-- The `self.hints` dictionary: `{count, current, time, cooldown}`.  The
hint text fetched from the question collaborator is modelled by its index
(`question.get_hint(n)` is external). -/
structure Hints where
  count : ℕ
  current : Option ℕ
  time : ℚ
  cooldown : ℚ
deriving DecidableEq, Repr

/-- The `self.streak` dictionary: `{count, player_name, player_id}`. -/
structure Streak where
  count : ℕ
  player_name : Option String
  player_id : Option ℕ
deriving DecidableEq, Repr

/-- What a scheduled sleeping task will do when its sleep returns:
the tail of `delay_new_round` (with its `new_round` flag) or the tail of
`round_timeout`.  A `roundTimeout` timer records the id of the round that was
current when it was scheduled; this field is ghost state used only to state
staleness (the Python callback takes no argument and reads `self.round` at
fire time). -/
inductive TimerKind where
  | delay (newRound : Bool)
  | roundTimeout (schedRoundId : ℕ)
deriving DecidableEq, Repr

/-- An outstanding sleeping task: its handle id, what it will run, the time
it was scheduled and its sleep duration. -/
structure Timer where
  tid : ℕ
  kind : TimerKind
  sched : ℚ
  dur : ℚ
deriving DecidableEq, Repr

/-- A chat participant as `run_chat` sees it: the `player` dict with
`id`, `name` and `permissions`. -/
structure Player where
  id : ℕ
  name : String
  permissions : ℕ
deriving DecidableEq, Repr

/-- The classification of one inbound chat text, abstracting the regular
expressions and the external answer check: whether `RE_ADMIN` matched (and
the command name and split arguments), whether
`self.round.question.check_answer(text)` holds for the current question, and
whether `RE_HINT` / `RE_NEXT` / `RE_START` matched. -/
structure Msg where
  adminCmd : Option (String × List String)
  correct : Bool
  isHint : Bool
  isNext : Bool
  isStart : Bool
deriving DecidableEq, Repr

/-- Outward notifications published through `broadcast`.  `streakMsg` is an
`announce_streak` message carrying the announced player name, the streak
count and the broken flag (the broken message also names the previous
holder; that text detail is elided).  `system` is any other system text and
`info` is a `broadcast_info` state snapshot. -/
inductive Out where
  | streakMsg (name : String) (count : ℕ) (broken : Bool)
  | system (msg : String)
  | info
deriving DecidableEq, Repr

/-- The whole mutable state of a `TriviaGame` object, plus the explicit
model of scheduled sleeping tasks (`pending`, `next_tid`), the persistence
id counter (`next_round_id`) and the last observed wall-clock time
(`clock`, used only to keep event times monotone). -/
structure GameState where
  state : Phase
  last_action : ℚ
  timeout : Option ℕ
  timer_start : Option ℚ
  round : Option RoundRec
  round_start : Option ℚ
  player_count : ℕ
  hints : Hints
  streak : Streak
  pending : List Timer
  next_tid : ℕ
  next_round_id : ℕ
  clock : ℚ
deriving DecidableEq, Repr

/-- `self._reset_hints()`. -/
def _reset_hints (s : GameState) : GameState :=
  { s with hints := { count := 0, current := none, time := 0, cooldown := 0 } }

/-- `self._reset_streak()`. -/
def _reset_streak (s : GameState) : GameState :=
  { s with streak := { count := 0, player_name := none, player_id := none } }

/-- `TriviaGame.__init__`: idle, no round, no timer, hints and streak
reset; `last_action = time.time()` is the start-up instant `t0`. -/
def GameState.init (t0 : ℚ) : GameState :=
  _reset_streak (_reset_hints
    { state := Phase.idle
      last_action := t0
      timeout := none
      timer_start := none
      round := none
      round_start := none
      player_count := 0
      hints := { count := 0, current := none, time := 0, cooldown := 0 }
      streak := { count := 0, player_name := none, player_id := none }
      pending := []
      next_tid := 0
      next_round_id := 1
      clock := t0 })

/-- `self.has_streak(player)`. -/
def has_streak (s : GameState) (p : Player) : Bool :=
  s.streak.player_id == some p.id && decide (STREAK_STEPS ≤ s.streak.count)

/-- Cancellation of the stored handle:
`asyncio.get_event_loop().call_soon_threadsafe(self.timeout.cancel)`.
The cancelled task is removed from the pending sleeps (an id that is no
longer pending is a completed or already-cancelled task; cancelling it is a
no-op).  When `self.timeout` is `None` the Python attribute access would
raise; that situation is unreachable at the call sites (see the invariants
below) and the model leaves the state unchanged. -/
def cancel_timeout (s : GameState) : GameState :=
  match s.timeout with
  | some tid => { s with pending := s.pending.filter (fun t => t.tid != tid) }
  | none => s

/-- Scheduling `self.timeout = asyncio.async(self.delay_new_round(new_round))`
together with the prefix of `delay_new_round` up to its `asyncio.sleep`:
enter Waiting, choose the wait (half `WAIT_TIME` on a fresh start), and on a
fresh start record `round_start`, reset the streak and announce the new
round.  A new pending delay timer is registered and its handle stored. -/
def delay_sched (s : GameState) (newRound : Bool) (now : ℚ) :
    GameState × List Out :=
  let wait : ℚ := if newRound then WAIT_TIME / 2 else WAIT_TIME
  let s1 : GameState :=
    { s with
      state := Phase.waiting
      round_start := if newRound then some now else s.round_start
      streak := if newRound then { count := 0, player_name := none, player_id := none } else s.streak
      pending := s.pending ++ [{ tid := s.next_tid, kind := TimerKind.delay newRound, sched := now, dur := wait }]
      timeout := some s.next_tid
      next_tid := s.next_tid + 1 }
  (s1, if newRound then [Out.system "New round starting soon"] else [])

/-- `self.start_new_round()`: create the round record, schedule the round
timer and store its handle, enter Question, set `timer_start`, reset hints,
publish the round info.  The `try/except IndexError` fallback around
`Round.new` concerns the persistence collaborator's chaining (absent from
`src/`) and is not modelled as failing. -/
def start_new_round (s : GameState) (now : ℚ) : GameState × List Out :=
  let r := Round.new s.next_round_id s.round_start now
  let s1 : GameState :=
    { s with
      round := some r
      next_round_id := s.next_round_id + 1
      pending := s.pending ++ [{ tid := s.next_tid, kind := TimerKind.roundTimeout r.id, sched := now, dur := ROUND_TIME }]
      timeout := some s.next_tid
      next_tid := s.next_tid + 1
      state := Phase.question
      timer_start := some now
      hints := { count := 0, current := none, time := 0, cooldown := 0 } }
  (s1, [Out.info])

/-- `self.round_end()`: enter Waiting, restart the display timer, publish,
then schedule the ordinary inter-round delay. -/
def round_end (s : GameState) (now : ℚ) : GameState × List Out :=
  let s1 : GameState := { s with state := Phase.waiting, timer_start := some now }
  ((delay_sched s1 false now).1, Out.info :: (delay_sched s1 false now).2)

/-- The streak bookkeeping at the top of `round_solved` (lines 142-154):
same player extends the streak, with an announcement at every
`STREAK_STEPS` multiple; a different player is announced as breaking the
previous streak when it strictly exceeded `STREAK_STEPS`, and the streak is
reset to the new player with count 1. -/
def streak_on_solve (st : Streak) (p : Player) : Streak × List Out :=
  if st.player_id = some p.id then
    let st1 : Streak := { st with count := st.count + 1, player_name := some p.name }
    (st1, if st1.count % STREAK_STEPS = 0 then [Out.streakMsg p.name st1.count false] else [])
  else
    ({ count := 1, player_name := some p.name, player_id := some p.id },
     if STREAK_STEPS < st.count then [Out.streakMsg p.name st.count true] else [])

/-- `self.round_solved(player)`: enter Waiting, update the streak, record
the solve on the round record (`solved_by` with `ROUND_TIME`, the hints used
and the updated streak count, then `end_round`), and run `round_end`.  When
`self.round` is `None` the Python code would raise at `self.round.id` after
the streak mutation, so the model keeps the mutations made up to that point
and stops; that situation is unreachable (Question implies a round is set). -/
def round_solved (s : GameState) (p : Player) (now : ℚ) : GameState × List Out :=
  let s1 : GameState :=
    { s with state := Phase.waiting, streak := (streak_on_solve s.streak p).1 }
  let outs := (streak_on_solve s.streak p).2
  match s1.round with
  | none => (s1, outs)
  | some r =>
      let r2 := RoundRec.end_round
        (RoundRec.solved_by r p.id p.name ROUND_TIME s1.hints.count s1.streak.count now)
      let s2 : GameState := { s1 with round := some r2 }
      ((round_end s2 now).1, outs ++ (round_end s2 now).2)

/-- `self.stop_game(reason, lock)`: cancel any stored timer handle, enter
Locked or Idle, publish the reason (defaulting to the inactivity text) and
the new info. -/
def stop_game (s : GameState) (reason : Option String) (lock : Bool) :
    GameState × List Out :=
  let s1 := cancel_timeout s
  ({ s1 with state := if lock then Phase.locked else Phase.idle },
   [Out.system (reason.getD "Stopping due to inactivity!"), Out.info])

/-- `self.next_round()`: only from Waiting with a stored handle; cancel it
and start the next round at once. -/
def next_round (s : GameState) (now : ℚ) : GameState × List Out :=
  if s.state = Phase.waiting ∧ s.timeout ≠ none then
    start_new_round (cancel_timeout s) now
  else (s, [])

/-- The continuation of `delay_new_round` after its sleep: stop on
inactivity (`player_count < 1` or no activity for `INACTIVITY_TIMEOUT`),
otherwise start the new round. -/
def delay_fire (s : GameState) (now : ℚ) : GameState × List Out :=
  if s.player_count < 1 ∨ INACTIVITY_TIMEOUT < now - s.last_action then
    stop_game s none false
  else
    start_new_round s now

/-- The continuation of `round_timeout` after its sleep: end the round that
is current at fire time (`Round[self.round.id].end_round()`) and run
`round_end`.  Note the source performs no check that the phase is still
Question or that the round matches the one the timer was scheduled for.
When `self.round` is `None` the Python code would raise; a round timer is
only ever scheduled with a round set, so the model returns the state
unchanged. -/
def round_timeout_fire (s : GameState) (now : ℚ) : GameState × List Out :=
  match s.round with
  | none => (s, [])
  | some r => round_end { s with round := some (RoundRec.end_round r) } now

/-- `self.get_hint()` (lines 284-306): no-op outside Question or at
`HINT_MAX`; no-op within `HINT_COOLDOWN` of the last release; release
exactly one hint when the elapsed-time schedule
(`ceil(elapsed / HINT_TIMING)`) is ahead of the released count.  When
`timer_start` is `None` the Python subtraction would raise; Question always
has it set, and the model returns the state unchanged. -/
def get_hint (s : GameState) (now : ℚ) : GameState × List Out :=
  if s.state ≠ Phase.question ∨ HINT_MAX ≤ s.hints.count then (s, [])
  else
    match s.timer_start with
    | none => (s, [])
    | some ts =>
        let elapsed := now - ts
        if now - s.hints.time < HINT_COOLDOWN then (s, [])
        else if (s.hints.count : ℤ) < ⌈elapsed / HINT_TIMING⌉ then
          ({ s with hints := { count := s.hints.count + 1, current := some (s.hints.count + 1), time := now, cooldown := s.hints.cooldown } },
           [Out.info])
        else (s, [])

/-- The external permission lookup `Player[player_id].has_perm(cmd)`
(persistence collaborator, absent from `src/`). -/
structure Env where
  hasPerm : ℕ → String → Bool
  objAttr : String → Bool := fun _ => false
  objRaises : String → List String → Bool := fun _ _ => false

/-- The attribute names the source itself puts on an `AdminCommand`
object, all found by `hasattr(self, cmd)`: the four command methods, the
`run` method and the two instance attributes set in `__init__`.
`hasattr` additionally finds the double-underscore attributes inherited
from `object` (`__init__`, `__class__`, `__doc__`, ...), whose exact set
comes from the Python runtime, not from this source: they are the
`Env.objAttr` oracle. -/
def adminAttrs : List String := ["next", "stop", "unlock", "start", "run", "game", "player_id"]

/-- The admin commands proper: the four command methods the handler
executes (spec section 4.3). -/
def adminCommands : List String := ["next", "stop", "unlock", "start"]

/-- `AdminCommand.unlock`: set the phase to Idle and publish the info;
nothing else. -/
def AdminCommand.unlock (s : GameState) : GameState × List Out :=
  ({ s with state := Phase.idle }, [Out.info])

/-- `AdminCommand.run(cmd, *args)`: reflective dispatch.  If `cmd` names an
attribute — one of the seven source-defined names, or a runtime-inherited
double-underscore attribute (`Env.objAttr`) — and the permission lookup
grants it, the attribute is called: the four command methods execute;
calling a non-method attribute (`game`, `player_id`) or `run` itself
raises a `TypeError`, surfaced by the returned flag; calling an inherited
double-underscore attribute never touches the game state, and whether it
raises depends on the attribute and the arguments (`__init__` with the
wrong arity raises, `__eq__` with one argument returns normally), which is
runtime behaviour outside this source: the `Env.objRaises` oracle.
Without permission, or for a name that is not an attribute at all, the
call is logged only: no state change, no output, no error. -/
def AdminCommand.run (env : Env) (s : GameState) (playerId : ℕ)
    (cmd : String) (args : List String) (now : ℚ) :
    GameState × List Out × Bool :=
  if adminAttrs.contains cmd || env.objAttr cmd then
    if env.hasPerm playerId cmd then
      if cmd = "next" then ((next_round s now).1, (next_round s now).2, false)
      else if cmd = "stop" then
        ((stop_game s (some "Stopped by administrator.") (args.contains "lock")).1,
         (stop_game s (some "Stopped by administrator.") (args.contains "lock")).2, false)
      else if cmd = "unlock" then ((AdminCommand.unlock s).1, (AdminCommand.unlock s).2, false)
      else if cmd = "start" then ((delay_sched s true now).1, (delay_sched s true now).2, false)
      else if cmd = "game" ∨ cmd = "player_id" ∨ cmd = "run" then (s, [], true)
      else (s, [], env.objRaises cmd args)
    else (s, [], false)
  else (s, [], false)

/-- The phase-dispatched part of one `run_chat` loop iteration (lines
124-137), reached when the message is not routed to the admin handler.  The
three `if` blocks test disjoint phases against the phase current when the
message was dequeued, so exactly one applies. -/
def chat_dispatch (s : GameState) (p : Player) (m : Msg) (now : ℚ) :
    GameState × List Out :=
  match s.state with
  | Phase.question =>
      if m.correct then round_solved (cancel_timeout s) p now
      else if m.isHint then get_hint s now
      else (s, [])
  | Phase.waiting =>
      if m.isNext && has_streak s p then next_round s now else (s, [])
  | Phase.idle =>
      if m.isStart then delay_sched s true now else (s, [])
  | Phase.locked => (s, [])

/-- One `run_chat` loop iteration for an inbound `(player, text)` pair:
update `last_action`, route admin-pattern messages from players with
positive permissions to `AdminCommand.run` (the surfaced-error flag is
dropped here; the state part is what remains after the raise), otherwise
dispatch on the phase. -/
def run_chat_step (env : Env) (s : GameState) (p : Player) (m : Msg) (now : ℚ) :
    GameState × List Out :=
  match m.adminCmd with
  | some pr =>
      if 0 < p.permissions then
        ((AdminCommand.run env { s with last_action := now, clock := now } p.id pr.1 pr.2 now).1,
         (AdminCommand.run env { s with last_action := now, clock := now } p.id pr.1 pr.2 now).2.1)
      else chat_dispatch { s with last_action := now, clock := now } p m now
  | none => chat_dispatch { s with last_action := now, clock := now } p m now

/-- The events that drive the engine: an inbound chat pair, the expiry of a
scheduled sleep, and the externally-maintained participant count changing
(the server updates `player_count`; that code is outside the engine). -/
inductive Event where
  | chat (p : Player) (m : Msg) (now : ℚ)
  | timerFire (tid : ℕ) (now : ℚ)
  | setPlayers (n : ℕ) (now : ℚ)
deriving DecidableEq, Repr

/-- One step of the serialized owner: chat messages run one `run_chat`
iteration; a timer expiry removes the task from the pending sleeps and runs
its continuation (an id that is not pending was cancelled or already ran:
nothing happens); a participant-count update only stores the count. -/
def stepFn (env : Env) (s : GameState) (e : Event) : GameState × List Out :=
  match e with
  | Event.chat p m now => run_chat_step env s p m now
  | Event.timerFire tid now =>
      match s.pending.find? (fun t => t.tid == tid) with
      | none => (s, [])
      | some t =>
          let s1 : GameState :=
            { s with pending := s.pending.filter (fun u => u.tid != tid), clock := now }
          match t.kind with
          | TimerKind.delay _ => delay_fire s1 now
          | TimerKind.roundTimeout _ => round_timeout_fire s1 now
  | Event.setPlayers n now => ({ s with player_count := n, clock := now }, [])

/-- The state part of a step. -/
def stepSt (env : Env) (s : GameState) (e : Event) : GameState :=
  (stepFn env s e).1

/-- Whether an event can really occur in state `s`: time never runs
backwards, and a sleep only returns at or after its deadline and only while
it is still pending. -/
def validEv (s : GameState) (e : Event) : Bool :=
  match e with
  | Event.chat _ _ now => decide (s.clock ≤ now)
  | Event.setPlayers _ now => decide (s.clock ≤ now)
  | Event.timerFire tid now =>
      decide (s.clock ≤ now) &&
      s.pending.any (fun t => t.tid == tid && decide (t.sched + t.dur ≤ now))

/-- States reachable from start-up through valid events satisfying a
filter `P`. -/
inductive ReachableP (env : Env) (P : Event → Bool) : GameState → Prop where
  | init (t0 : ℚ) : ReachableP env P (GameState.init t0)
  | step {s : GameState} {e : Event} :
      ReachableP env P s → validEv s e = true → P e = true →
      ReachableP env P (stepSt env s e)

/-- The trivial event filter. -/
def allEv : Event → Bool := fun _ => true

/-- States reachable from start-up through valid events. -/
def Reachable (env : Env) : GameState → Prop :=
  ReachableP env allEv


/-- The shape of the `game` part of the `get_round_info` projection: the
data each HTML branch renders (ids, hint, solver summary), with the markup
elided. -/
inductive GameView where
  | questionView (id : ℕ) (hint : Option ℕ)
  | solvedSummary (id : ℕ) (solverName : String) (timeTaken : ℚ)
  | unsolvedSummary (id : ℕ)
  | idleMsg
  | lockedMsg
deriving DecidableEq, Repr

/-- The `timer` part of the projection: empty, or a bar with the remaining
time it displays. -/
inductive TimerView where
  | off
  | bar (timeLeft : ℚ)
deriving DecidableEq, Repr

/-- The `{game, timer}` dictionary `get_round_info` returns. -/
structure RoundInfo where
  game : GameView
  timer : TimerView
deriving DecidableEq, Repr

/-- `self.get_round_info()` (lines 52-98), the read-only projection of the
current state.  It returns `none` exactly where the Python code raises:
in Question or Waiting with `self.round = None` (the format strings access
`round.id`), with `self.round` set but `self.timer_start = None` (the
elapsed-time subtraction), or in Waiting on a solved round with no solver
recorded (`round.solver.name`). -/
def get_round_info (s : GameState) (now : ℚ) : Option RoundInfo :=
  match s.state with
  | Phase.question =>
      match s.round, s.timer_start with
      | some r, some ts =>
          some { game := GameView.questionView r.id s.hints.current
                 timer := TimerView.bar (ROUND_TIME - (now - ts)) }
      | _, _ => none
  | Phase.waiting =>
      match s.round, s.timer_start with
      | some r, some ts =>
          if r.solved then
            match r.solverName with
            | some nm =>
                some { game := GameView.solvedSummary r.id nm r.timeTaken
                       timer := TimerView.bar (WAIT_TIME - (now - ts)) }
            | none => none
          else
            some { game := GameView.unsolvedSummary r.id
                   timer := TimerView.bar (WAIT_TIME - (now - ts)) }
      | _, _ => none
  | Phase.idle => some { game := GameView.idleMsg, timer := TimerView.off }
  | Phase.locked => some { game := GameView.lockedMsg, timer := TimerView.off }

/-- A permission environment granting every command (the permission model
is an external collaborator; counterexample traces fix one). -/
def envAll : Env := { hasPerm := fun _ _ => true }

/-- A chat participant with admin permissions. -/
def pAdm : Player := { id := 1, name := "A", permissions := 1 }

/-- An ordinary chat participant. -/
def pB : Player := { id := 2, name := "B", permissions := 0 }

/-- A plain `!start` message. -/
def mStart : Msg := { adminCmd := none, correct := false, isHint := false, isNext := false, isStart := true }

/-- A message that is a correct answer to the current question. -/
def mCorrect : Msg := { adminCmd := none, correct := true, isHint := false, isNext := false, isStart := false }

/-- An `!admin start` message. -/
def mAdminStart : Msg := { adminCmd := some ("start", []), correct := false, isHint := false, isNext := false, isStart := false }

/-- An `!admin stop` message. -/
def mAdminStop : Msg := { adminCmd := some ("stop", []), correct := false, isHint := false, isNext := false, isStart := false }

/-- Trace state: one participant connects at t = 0. -/
def g1 : GameState := stepSt envAll (GameState.init 0) (Event.setPlayers 1 0)

/-- Trace state: `!start` at t = 0 (Idle, so a half-length new-round delay
of 5 s is scheduled and the phase is already Waiting, with no round yet). -/
def g2 : GameState := stepSt envAll g1 (Event.chat pB mStart 0)

/-- Trace state: the new-round delay fires at t = 5: round #1 starts,
phase Question, round timer scheduled for t = 50. -/
def g3 : GameState := stepSt envAll g2 (Event.timerFire 0 5)

/-- Trace state: `!admin start` at t = 10 while round #1 is live: a second
delay timer is scheduled without cancelling the pending round timer. -/
def g4 : GameState := stepSt envAll g3 (Event.chat pAdm mAdminStart 10)

/-- Trace state: player B answers round #1 correctly at t = 15: the round
timer is cancelled, the solve is recorded (time taken 10), the streak moves
to B with count 1, and the ordinary 10 s inter-round delay is scheduled. -/
def h4 : GameState := stepSt envAll g3 (Event.chat pB mCorrect 15)

/-- Trace state: the inter-round delay fires at t = 25 and round #2 starts:
the phase is Question again and the streak from round #1 persists. -/
def h5 : GameState := stepSt envAll h4 (Event.timerFire 2 25)

/-- Trace state: `!admin stop` at t = 6 while round #1 is live: the round
timer is cancelled and the phase becomes Idle, but `self.round` is not
cleared. -/
def k4 : GameState := stepSt envAll g3 (Event.chat pAdm mAdminStop 6)

/-- A permission environment granting nothing. -/
def envNone : Env := { hasPerm := fun _ _ => false }

/-- Events that do not invoke the admin `start` or `unlock` commands (the
two commands that break the timer-handle discipline; see the C2 and C3
results).  A chat message is only routed to the admin handler when its
sender has positive permissions, so only those messages are excluded. -/
def benign : Event → Bool
  | Event.chat p m _ =>
      match m.adminCmd with
      | some pr => !(decide (0 < p.permissions) && (pr.1 == "start" || pr.1 == "unlock"))
      | none => true
  | _ => true

/-- The timer-handle discipline of the spec: at most one task is sleeping,
and when one is, it is the one the stored handle `self.timeout` refers to;
moreover Idle and Locked hold no sleeping task at all. -/
def timersOK (s : GameState) : Prop :=
  (s.pending = [] ∨ ∃ t, s.pending = [t] ∧ s.timeout = some t.tid) ∧
  ((s.state = Phase.idle ∨ s.state = Phase.locked) → s.pending = [])

/-- The data invariants `get_round_info` relies on: Question always has a
round, a round implies the display timer was started, and a solved round
has a recorded solver. -/
def roundInv (s : GameState) : Prop :=
  (s.state = Phase.question → s.round.isSome) ∧
  (s.round.isSome → s.timer_start.isSome) ∧
  (∀ r : RoundRec, s.round = some r → r.solved = true → r.solverName.isSome)

/-- Cancelling the stored handle touches only the pending sleeps: every
other field of the state is unchanged. -/
theorem cancel_timeout_frame (s : GameState) :
    (cancel_timeout s).state = s.state ∧
    (cancel_timeout s).round = s.round ∧
    (cancel_timeout s).hints = s.hints ∧
    (cancel_timeout s).streak = s.streak ∧
    (cancel_timeout s).timer_start = s.timer_start ∧
    (cancel_timeout s).timeout = s.timeout ∧
    (cancel_timeout s).last_action = s.last_action ∧
    (cancel_timeout s).clock = s.clock ∧
    (cancel_timeout s).player_count = s.player_count ∧
    (cancel_timeout s).next_tid = s.next_tid ∧
    (cancel_timeout s).next_round_id = s.next_round_id := by
  cases h : s.timeout <;> simp [cancel_timeout, h]

/-- C10: the admin `unlock` command sets the phase to Idle from every phase,
not only from Locked, and changes nothing else: no timer is cancelled or
scheduled and the current round, hint state, streak state, stored handle and
display-timer start are left unchanged; no error is surfaced. -/
theorem c10_unlock_idle_frame (env : Env) (s : GameState) (pid : ℕ)
    (args : List String) (now : ℚ)
    (hperm : env.hasPerm pid "unlock" = true) :
    (AdminCommand.run env s pid "unlock" args now).1.state = Phase.idle ∧
    (AdminCommand.run env s pid "unlock" args now).1.round = s.round ∧
    (AdminCommand.run env s pid "unlock" args now).1.hints = s.hints ∧
    (AdminCommand.run env s pid "unlock" args now).1.streak = s.streak ∧
    (AdminCommand.run env s pid "unlock" args now).1.pending = s.pending ∧
    (AdminCommand.run env s pid "unlock" args now).1.timeout = s.timeout ∧
    (AdminCommand.run env s pid "unlock" args now).1.timer_start = s.timer_start ∧
    (AdminCommand.run env s pid "unlock" args now).2.2 = false := by
  simp [AdminCommand.run, AdminCommand.unlock, adminAttrs, hperm]

/-- Witness for C10: a permitted `unlock` while round #1 is live (phase
Question) moves the phase to Idle and leaves everything else alone. -/
theorem c10_unlock_idle_frame_witness :
    (AdminCommand.run envAll g3 1 "unlock" [] 11).1.state = Phase.idle ∧
    (AdminCommand.run envAll g3 1 "unlock" [] 11).1.round = g3.round ∧
    (AdminCommand.run envAll g3 1 "unlock" [] 11).1.hints = g3.hints ∧
    (AdminCommand.run envAll g3 1 "unlock" [] 11).1.streak = g3.streak ∧
    (AdminCommand.run envAll g3 1 "unlock" [] 11).1.pending = g3.pending ∧
    (AdminCommand.run envAll g3 1 "unlock" [] 11).1.timeout = g3.timeout ∧
    (AdminCommand.run envAll g3 1 "unlock" [] 11).1.timer_start = g3.timer_start ∧
    (AdminCommand.run envAll g3 1 "unlock" [] 11).2.2 = false :=
  c10_unlock_idle_frame envAll g3 1 [] 11 rfl

/-- C9 (amended): an admin invocation without permission for the named
command is rejected silently — state unchanged, nothing published, no
error — whatever the name.  Any invocation whose name is not one of the
four admin commands never mutates state and publishes nothing, whatever
the permission.  And a name that is not an attribute of the handler object
at all — neither the seven source-defined names nor a runtime-inherited
double-underscore attribute — is rejected silently with no error.  (The
original claim fails for unknown names that collide with an attribute,
such as `game` or `__init__`; see the counterexample.) -/
theorem c9_silent_rejection (env : Env) (s : GameState) (pid : ℕ)
    (cmd : String) (args : List String) (now : ℚ) :
    (env.hasPerm pid cmd = false →
      AdminCommand.run env s pid cmd args now = (s, [], false)) ∧
    (cmd ∉ adminCommands →
      (AdminCommand.run env s pid cmd args now).1 = s ∧
      (AdminCommand.run env s pid cmd args now).2.1 = []) ∧
    (cmd ∉ adminAttrs → env.objAttr cmd = false →
      AdminCommand.run env s pid cmd args now = (s, [], false)) := by
  refine ⟨?_, ?_, ?_⟩
  · intro h
    unfold AdminCommand.run
    split
    · rw [if_neg (by simp [h])]
    · rfl
  · intro h
    unfold AdminCommand.run
    repeat' split
    all_goals first
      | exact ⟨rfl, rfl⟩
      | (rename_i hx; subst hx; simp [adminCommands] at h)
  · intro h1 h2
    unfold AdminCommand.run
    rw [if_neg (by simp [h1, h2])]

/-- Witness for C9's amended theorem: with a permission oracle granting
nothing, `stop` is rejected with no state change and no error. -/
theorem c9_silent_rejection_witness :
    AdminCommand.run envNone (GameState.init 0) 7 "stop" [] 0 =
      (GameState.init 0, [], false) :=
  (c9_silent_rejection envNone (GameState.init 0) 7 "stop" [] 0).1 rfl

/-- Counterexample for C9 as stated: `game` is not one of the admin
commands (so its name is unknown as a command), yet when the external
permission lookup grants it, `AdminCommand.run` reaches
`getattr(self, "game")(self, ...)`, which raises a `TypeError` that
propagates to the caller (the flag below): an unknown command surfacing an
error, though still with no state mutation. -/
theorem c9_counterexample_unknown_attr_raises :
    adminCommands.contains "game" = false ∧
    (AdminCommand.run envAll (GameState.init 0) 7 "game" [] 0).2.2 = true ∧
    (AdminCommand.run envAll (GameState.init 0) 7 "game" [] 0).1 =
      GameState.init 0 :=
  ⟨by decide, by decide, by decide⟩

/-- C5: streak bookkeeping on a solve.  If the solver already holds the
streak, the count increases by exactly 1 and a streak announcement is
published exactly at the multiples of `STREAK_STEPS`; otherwise the streak
is reset to the new player with count 1, with a broken-streak announcement
exactly when the previous count strictly exceeded `STREAK_STEPS`. -/
theorem c5_streak_tracking (st : Streak) (p : Player) :
    if st.player_id = some p.id then
      (streak_on_solve st p).1.count = st.count + 1 ∧
      (streak_on_solve st p).1.player_id = st.player_id ∧
      ((streak_on_solve st p).2 = [Out.streakMsg p.name (st.count + 1) false] ↔
        (st.count + 1) % STREAK_STEPS = 0) ∧
      ((streak_on_solve st p).2 = [] ↔ ¬(st.count + 1) % STREAK_STEPS = 0)
    else
      (streak_on_solve st p).1 =
        { count := 1, player_name := some p.name, player_id := some p.id } ∧
      ((streak_on_solve st p).2 = [Out.streakMsg p.name st.count true] ↔
        STREAK_STEPS < st.count) ∧
      ((streak_on_solve st p).2 = [] ↔ ¬STREAK_STEPS < st.count) := by
  by_cases h : st.player_id = some p.id
  · rw [if_pos h]
    refine ⟨by simp [streak_on_solve, h], by simp [streak_on_solve, h], ?_, ?_⟩ <;>
      · simp only [streak_on_solve, h, if_pos]
        split <;> simp_all
  · rw [if_neg h]
    refine ⟨by simp [streak_on_solve, h], ?_, ?_⟩ <;>
      · simp only [streak_on_solve, h, if_neg, not_false_iff]
        split <;> simp_all

/-- Witness for C5: player A (id 1) extends their streak from 4 to 5 and
the streak announcement fires. -/
theorem c5_streak_tracking_witness :
    if ({ count := 4, player_name := some "A", player_id := some 1 } : Streak).player_id =
        some ({ id := 1, name := "A", permissions := 0 } : Player).id then
      (streak_on_solve { count := 4, player_name := some "A", player_id := some 1 }
        { id := 1, name := "A", permissions := 0 }).1.count =
        ({ count := 4, player_name := some "A", player_id := some 1 } : Streak).count + 1 ∧
      (streak_on_solve { count := 4, player_name := some "A", player_id := some 1 }
        { id := 1, name := "A", permissions := 0 }).1.player_id =
        ({ count := 4, player_name := some "A", player_id := some 1 } : Streak).player_id ∧
      ((streak_on_solve { count := 4, player_name := some "A", player_id := some 1 }
        { id := 1, name := "A", permissions := 0 }).2 =
          [Out.streakMsg "A" (({ count := 4, player_name := some "A", player_id := some 1 } : Streak).count + 1) false] ↔
        (({ count := 4, player_name := some "A", player_id := some 1 } : Streak).count + 1) % STREAK_STEPS = 0) ∧
      ((streak_on_solve { count := 4, player_name := some "A", player_id := some 1 }
        { id := 1, name := "A", permissions := 0 }).2 = [] ↔
        ¬(({ count := 4, player_name := some "A", player_id := some 1 } : Streak).count + 1) % STREAK_STEPS = 0)
    else
      (streak_on_solve { count := 4, player_name := some "A", player_id := some 1 }
        { id := 1, name := "A", permissions := 0 }).1 =
        { count := 1, player_name := some "A", player_id := some 1 } ∧
      ((streak_on_solve { count := 4, player_name := some "A", player_id := some 1 }
        { id := 1, name := "A", permissions := 0 }).2 =
          [Out.streakMsg "A" ({ count := 4, player_name := some "A", player_id := some 1 } : Streak).count true] ↔
        STREAK_STEPS < ({ count := 4, player_name := some "A", player_id := some 1 } : Streak).count) ∧
      ((streak_on_solve { count := 4, player_name := some "A", player_id := some 1 }
        { id := 1, name := "A", permissions := 0 }).2 = [] ↔
        ¬STREAK_STEPS < ({ count := 4, player_name := some "A", player_id := some 1 } : Streak).count) :=
  c5_streak_tracking { count := 4, player_name := some "A", player_id := some 1 }
    { id := 1, name := "A", permissions := 0 }

/-- C4: within a round, `get_hint` never decreases the hint count, releases
at most one hint per call even when several are owed by the elapsed-time
schedule, never lets the count exceed `HINT_MAX`, is a no-op (no state
change, no output) unless the phase is Question, and every successful
release happens at least `HINT_COOLDOWN` after the previous release
timestamp. -/
theorem c4_get_hint_discipline (s : GameState) (now : ℚ) :
    s.hints.count ≤ (get_hint s now).1.hints.count ∧
    (get_hint s now).1.hints.count ≤ s.hints.count + 1 ∧
    (s.hints.count ≤ HINT_MAX → (get_hint s now).1.hints.count ≤ HINT_MAX) ∧
    (s.state ≠ Phase.question → (get_hint s now).1 = s ∧ (get_hint s now).2 = []) ∧
    ((get_hint s now).1.hints.count ≠ s.hints.count →
      HINT_COOLDOWN ≤ now - s.hints.time) := by
  unfold get_hint
  split
  · simp_all
  · rename_i hguard
    push_neg at hguard
    cases hts : s.timer_start with
    | none => simp_all
    | some ts =>
        simp only
        split
        · simp_all
        · rename_i hcool
          push_neg at hcool
          split
          · refine ⟨by simp, by simp, ?_, ?_, ?_⟩
            · intro _
              simp only [GameState.hints]
              omega
            · intro hq; exact absurd hguard.1 (by simp_all)
            · intro _; exact hcool
          · simp_all

/-- Witness for C4: the hint discipline instantiated at the live round
state `g3` with a request at t = 20 (where a hint is actually owed). -/
theorem c4_get_hint_discipline_witness :
    g3.hints.count ≤ (get_hint g3 20).1.hints.count ∧
    (get_hint g3 20).1.hints.count ≤ g3.hints.count + 1 ∧
    (g3.hints.count ≤ HINT_MAX → (get_hint g3 20).1.hints.count ≤ HINT_MAX) ∧
    (g3.state ≠ Phase.question → (get_hint g3 20).1 = g3 ∧ (get_hint g3 20).2 = []) ∧
    ((get_hint g3 20).1.hints.count ≠ g3.hints.count →
      HINT_COOLDOWN ≤ 20 - g3.hints.time) :=
  c4_get_hint_discipline g3 20

/-- C7 (amended): a null round handle in Idle/Locked holds only before any
round has been created: the initial state has no round, and the two ways of
entering Idle/Locked afterwards, `stop_game` and the admin `unlock`, leave
the round handle (and the display-timer start) untouched rather than
clearing them. -/
theorem c7_idle_round_frame :
    (∀ t0 : ℚ, (GameState.init t0).round = none ∧
      (GameState.init t0).state = Phase.idle) ∧
    (∀ (s : GameState) (reason : Option String) (lock : Bool),
      (stop_game s reason lock).1.round = s.round ∧
      (stop_game s reason lock).1.timer_start = s.timer_start ∧
      (stop_game s reason lock).1.state = (if lock then Phase.locked else Phase.idle)) ∧
    (∀ s : GameState, (AdminCommand.unlock s).1.round = s.round ∧
      (AdminCommand.unlock s).1.state = Phase.idle) := by
  refine ⟨fun t0 => ⟨rfl, rfl⟩, fun s reason lock => ?_, fun s => ⟨rfl, rfl⟩⟩
  unfold stop_game
  exact ⟨(cancel_timeout_frame s).2.1, (cancel_timeout_frame s).2.2.2.2.1, rfl⟩

/-- C8 (amended): the streak state is reset when a new game is started (the
`!start` / admin-start path, `delay_new_round(new_round=True)`) and at
construction, but an ordinary round start preserves it: `start_new_round`
and the ordinary inter-round delay leave the streak unchanged, so a
Question phase reached from the normal Waiting delay keeps the previous
streak. -/
theorem c8_streak_reset_on_game_start_only :
    (∀ (s : GameState) (now : ℚ), (delay_sched s true now).1.streak =
      { count := 0, player_name := none, player_id := none }) ∧
    (∀ (s : GameState) (now : ℚ), (delay_sched s false now).1.streak = s.streak) ∧
    (∀ (s : GameState) (now : ℚ), (start_new_round s now).1.streak = s.streak) ∧
    (∀ (s : GameState) (now : ℚ), (delay_fire s now).1.streak = s.streak) ∧
    (∀ t0 : ℚ, (GameState.init t0).streak =
      { count := 0, player_name := none, player_id := none }) := by
  refine ⟨fun s now => rfl, fun s now => rfl, fun s now => rfl, fun s now => ?_, fun t0 => rfl⟩
  unfold delay_fire
  split
  · exact (cancel_timeout_frame s).2.2.2.1
  · rfl

/-- The start-up state is reachable, one participant joins. -/
theorem reach_g1 : Reachable envAll g1 :=
  ReachableP.step (ReachableP.init 0) (by with_unfolding_all decide) rfl

/-- The post-`!start` state `g2` is reachable. -/
theorem reach_g2 : Reachable envAll g2 :=
  ReachableP.step reach_g1 (by with_unfolding_all decide) rfl

/-- The live-round state `g3` is reachable. -/
theorem reach_g3 : Reachable envAll g3 :=
  ReachableP.step reach_g2 (by with_unfolding_all decide) rfl

/-- The state `g4` after `!admin start` during a live round is reachable. -/
theorem reach_g4 : Reachable envAll g4 :=
  ReachableP.step reach_g3 (by with_unfolding_all decide) rfl

/-- The solved state `h4` is reachable. -/
theorem reach_h4 : Reachable envAll h4 :=
  ReachableP.step reach_g3 (by with_unfolding_all decide) rfl

/-- The second-round state `h5` is reachable. -/
theorem reach_h5 : Reachable envAll h5 :=
  ReachableP.step reach_h4 (by with_unfolding_all decide) rfl

/-- The stopped state `k4` is reachable. -/
theorem reach_k4 : Reachable envAll k4 :=
  ReachableP.step reach_g3 (by with_unfolding_all decide) rfl

/-- Counterexample for C2 as stated: the reachable state `g4` — reached by
`!start` at t = 0, the new-round delay firing at t = 5 (round #1, round
timer pending), then a permitted `!admin start` at t = 10 — holds two
outstanding timers at once, because `AdminCommand.start` schedules a new
delay task without cancelling the stored round timer first. -/
theorem c2_counterexample_two_timers :
    Reachable envAll g4 ∧ g4.pending.length = 2 :=
  ⟨reach_g4, by with_unfolding_all decide⟩

/-- Counterexample for C3 as stated: in the reachable state `g4` the round
timer of round #1 is still pending although the phase is no longer Question
for that round; when it fires at its deadline t = 50 (a valid firing), the
callback is not a no-op — it mutates the state (ends the current round,
resets the display timer and schedules a further delay). -/
theorem c3_counterexample_stale_fire_mutates :
    Reachable envAll g4 ∧
    g4.pending.find? (fun u => u.tid == 1) =
      some { tid := 1, kind := TimerKind.roundTimeout 1, sched := 5, dur := 45 } ∧
    g4.round = some (Round.new 1 (some 0) 5) ∧
    g4.state ≠ Phase.question ∧
    validEv g4 (Event.timerFire 1 50) = true ∧
    stepSt envAll g4 (Event.timerFire 1 50) ≠ g4 :=
  ⟨reach_g4, by with_unfolding_all decide, by with_unfolding_all decide,
   by with_unfolding_all decide, by with_unfolding_all decide,
   by with_unfolding_all decide⟩

/-- Counterexample for C6 as stated: in the reachable state `g2` — Waiting
during the very first new-round delay, before any round record exists —
`get_round_info` fails (the Python code raises formatting `self.round`,
which is `None`). -/
theorem c6_counterexample_info_fails :
    Reachable envAll g2 ∧ g2.state = Phase.waiting ∧ get_round_info g2 3 = none :=
  ⟨reach_g2, by with_unfolding_all decide, by with_unfolding_all decide⟩

/-- Counterexample for C7 as stated: the reachable state `k4` — round #1
live, then a permitted `!admin stop` — has phase Idle while the round
handle still points at round #1 (`stop_game` never clears `self.round`). -/
theorem c7_counterexample_idle_with_round :
    Reachable envAll k4 ∧ k4.state = Phase.idle ∧ k4.round ≠ none :=
  ⟨reach_k4, by with_unfolding_all decide, by with_unfolding_all decide⟩

/-- Counterexample for C8 as stated: the reachable state `h5` — round #1
solved by player B, then the ordinary inter-round delay fires and round #2
begins — is at the start of a Question phase reached from the Waiting
delay, yet the streak state still carries B's streak of 1: it has not been
reset. -/
theorem c8_counterexample_streak_not_reset :
    Reachable envAll h5 ∧ h5.state = Phase.question ∧
    h5.streak = { count := 1, player_name := some "B", player_id := some 2 } :=
  ⟨reach_h5, by with_unfolding_all decide, by with_unfolding_all decide⟩

/-- C1: when a correct answer arrives while the phase is Question, the
phase becomes Waiting and the solve is recorded on the round record with
time taken equal to `now` minus the round's start time, together with the
hints used this round and the (updated) streak count; the solver is
recorded as well. -/
theorem c1_correct_answer_records_solve (env : Env) (s : GameState)
    (p : Player) (m : Msg) (now : ℚ) (r : RoundRec)
    (hadmin : m.adminCmd = none) (hq : s.state = Phase.question)
    (hc : m.correct = true) (hr : s.round = some r) :
    (run_chat_step env s p m now).1.state = Phase.waiting ∧
    ∃ r2 : RoundRec,
      (run_chat_step env s p m now).1.round = some r2 ∧
      r2.solved = true ∧
      r2.timeTaken = now - r.startTime ∧
      r2.hintsUsed = s.hints.count ∧
      r2.streakVal = (streak_on_solve s.streak p).1.count ∧
      r2.solverId = some p.id := by
  refine ⟨?_, RoundRec.end_round (RoundRec.solved_by r p.id p.name ROUND_TIME
    s.hints.count (streak_on_solve s.streak p).1.count now), ?_, ?_, ?_, ?_, ?_, ?_⟩ <;>
    cases hts : s.timeout <;>
      simp [run_chat_step, chat_dispatch, round_solved, round_end, delay_sched,
            cancel_timeout, RoundRec.end_round, RoundRec.solved_by,
            hadmin, hq, hc, hr, hts]

/-- Witness for C1, matching the spec scenario: round #1 of the trace
starts at t = 5 and player B answers correctly at t = 15, i.e. 10 seconds
into the round; the recorded time taken is 15 − 5 = 10 and the phase is
Waiting immediately. -/
theorem c1_correct_answer_records_solve_witness :
    (run_chat_step envAll g3 pB mCorrect 15).1.state = Phase.waiting ∧
    ∃ r2 : RoundRec,
      (run_chat_step envAll g3 pB mCorrect 15).1.round = some r2 ∧
      r2.solved = true ∧
      r2.timeTaken = 15 -
        ({ id := 1, startTime := 5, solved := false, solverId := none,
           solverName := none, timeTaken := 0, hintsUsed := 0, streakVal := 0,
           ended := false } : RoundRec).startTime ∧
      r2.hintsUsed = g3.hints.count ∧
      r2.streakVal = (streak_on_solve g3.streak pB).1.count ∧
      r2.solverId = some pB.id :=
  c1_correct_answer_records_solve envAll g3 pB mCorrect 15
    { id := 1, startTime := 5, solved := false, solverId := none,
      solverName := none, timeTaken := 0, hintsUsed := 0, streakVal := 0,
      ended := false }
    rfl (by with_unfolding_all decide) rfl (by with_unfolding_all decide)

/-- A state with no sleeping task satisfies the timer discipline. -/
theorem timersOK_of_nil {s : GameState} (h : s.pending = []) : timersOK s :=
  ⟨Or.inl h, fun _ => h⟩

/-- Under the timer discipline, cancelling the stored handle empties the
pending sleeps. -/
theorem cancel_timeout_nil {s : GameState} (h : timersOK s) :
    (cancel_timeout s).pending = [] := by
  rcases h.1 with h1 | ⟨t, hp, ht⟩
  · cases hts : s.timeout <;> simp [cancel_timeout, hts, h1]
  · simp [cancel_timeout, ht, hp]

/-- Scheduling the inter-round delay from a state with no sleeping task
re-establishes the timer discipline. -/
theorem timersOK_delay_sched {s : GameState} (nr : Bool) (now : ℚ)
    (h : s.pending = []) : timersOK (delay_sched s nr now).1 := by
  refine ⟨Or.inr ⟨⟨s.next_tid, TimerKind.delay nr, now,
    if nr then WAIT_TIME / 2 else WAIT_TIME⟩, ?_, ?_⟩, ?_⟩ <;>
    simp [delay_sched, h]

/-- Starting a round from a state with no sleeping task re-establishes the
timer discipline. -/
theorem timersOK_start_new_round {s : GameState} (now : ℚ)
    (h : s.pending = []) : timersOK (start_new_round s now).1 := by
  refine ⟨Or.inr ⟨⟨s.next_tid, TimerKind.roundTimeout s.next_round_id, now, ROUND_TIME⟩, ?_, ?_⟩, ?_⟩ <;>
    simp [start_new_round, Round.new, h]

/-- Ending a round from a state with no sleeping task re-establishes the
timer discipline. -/
theorem timersOK_round_end {s : GameState} (now : ℚ)
    (h : s.pending = []) : timersOK (round_end s now).1 := by
  refine ⟨Or.inr ⟨⟨s.next_tid, TimerKind.delay false, now, WAIT_TIME⟩, ?_, ?_⟩, ?_⟩ <;>
    simp [round_end, delay_sched, h]

/-- The solved-round path keeps the timer discipline when entered with no
sleeping task (as after the answer-path cancellation). -/
theorem timersOK_round_solved {s : GameState} (p : Player) (now : ℚ)
    (h : s.pending = []) : timersOK (round_solved s p now).1 := by
  cases hr : s.round with
  | none => exact timersOK_of_nil (by simp [round_solved, hr, h])
  | some r =>
      simp only [round_solved, hr]
      exact timersOK_round_end now (by simpa using h)

/-- Stopping the game keeps the timer discipline. -/
theorem timersOK_stop_game {s : GameState} (reason : Option String)
    (lock : Bool) (h : timersOK s) : timersOK (stop_game s reason lock).1 := by
  have hnil := cancel_timeout_nil h
  exact ⟨Or.inl (by simpa [stop_game] using hnil),
    fun _ => by simpa [stop_game] using hnil⟩

/-- Skipping to the next round keeps the timer discipline. -/
theorem timersOK_next_round {s : GameState} (now : ℚ) (h : timersOK s) :
    timersOK (next_round s now).1 := by
  unfold next_round
  split
  · exact timersOK_start_new_round now (cancel_timeout_nil h)
  · exact h

/-- `get_hint` touches only the hint record: the phase, round, timers and
streak are untouched. -/
theorem get_hint_frame (s : GameState) (now : ℚ) :
    (get_hint s now).1.pending = s.pending ∧
    (get_hint s now).1.timeout = s.timeout ∧
    (get_hint s now).1.state = s.state ∧
    (get_hint s now).1.round = s.round ∧
    (get_hint s now).1.timer_start = s.timer_start ∧
    (get_hint s now).1.streak = s.streak := by
  unfold get_hint
  split
  · simp
  · cases hts : s.timer_start
    · simp [hts]
    · simp only [hts]
      split
      · simp [hts]
      · split <;> simp [hts]

/-- `get_hint` keeps the timer discipline. -/
theorem timersOK_get_hint {s : GameState} (now : ℚ) (h : timersOK s) :
    timersOK (get_hint s now).1 := by
  have hf := get_hint_frame s now
  unfold timersOK at h ⊢
  rw [hf.1, hf.2.1, hf.2.2.1]
  exact h

/-- The delay continuation keeps the timer discipline when the fired task
has been removed. -/
theorem timersOK_delay_fire {s : GameState} (now : ℚ) (h : s.pending = []) :
    timersOK (delay_fire s now).1 := by
  unfold delay_fire
  split
  · exact timersOK_stop_game _ _ (timersOK_of_nil h)
  · exact timersOK_start_new_round now h

/-- The round-timeout continuation keeps the timer discipline when the
fired task has been removed. -/
theorem timersOK_round_timeout_fire {s : GameState} (now : ℚ)
    (h : s.pending = []) : timersOK (round_timeout_fire s now).1 := by
  cases hr : s.round with
  | none => exact timersOK_of_nil (by simp [round_timeout_fire, hr, h])
  | some r =>
      simp only [round_timeout_fire, hr]
      exact timersOK_round_end now (by simpa using h)

/-- Admin commands other than `start` and `unlock` keep the timer
discipline: `next` and `stop` cancel the stored handle before moving on,
and rejected or raising invocations do not touch the timers. -/
theorem timersOK_admin_run {env : Env} {s : GameState} {pid : ℕ}
    {cmd : String} {args : List String} {now : ℚ} (h : timersOK s)
    (h1 : cmd ≠ "start") (h2 : cmd ≠ "unlock") :
    timersOK (AdminCommand.run env s pid cmd args now).1 := by
  unfold AdminCommand.run
  repeat' split
  all_goals first
    | exact h
    | exact timersOK_next_round now h
    | exact timersOK_stop_game (some "Stopped by administrator.")
        (args.contains "lock") h
    | (rename_i hx; exact absurd hx h2)
    | (rename_i hx; exact absurd hx h1)

/-- The phase-dispatched chat paths keep the timer discipline. -/
theorem timersOK_chat_dispatch {s : GameState} {p : Player} {m : Msg}
    {now : ℚ} (h : timersOK s) : timersOK (chat_dispatch s p m now).1 := by
  unfold chat_dispatch
  cases hs : s.state with
  | question =>
      by_cases hc : m.correct = true
      · rw [if_pos hc]
        exact timersOK_round_solved p now (cancel_timeout_nil h)
      · rw [if_neg hc]
        by_cases hh : m.isHint = true
        · rw [if_pos hh]
          exact timersOK_get_hint now h
        · rw [if_neg hh]
          exact h
  | waiting =>
      by_cases hn : (m.isNext && has_streak s p) = true
      · rw [if_pos hn]
        exact timersOK_next_round now h
      · rw [if_neg hn]
        exact h
  | idle =>
      by_cases hst : m.isStart = true
      · rw [if_pos hst]
        exact timersOK_delay_sched true now (h.2 (Or.inl hs))
      · rw [if_neg hst]
        exact h
  | locked => exact h

/-- One chat iteration that does not invoke admin `start`/`unlock` keeps
the timer discipline. -/
theorem timersOK_run_chat {env : Env} {s : GameState} {p : Player} {m : Msg}
    {now : ℚ} (h : timersOK s) (hb : benign (Event.chat p m now) = true) :
    timersOK (run_chat_step env s p m now).1 := by
  have h0 : timersOK { s with last_action := now, clock := now } := h
  cases hm : m.adminCmd with
  | none =>
      simp only [run_chat_step, hm]
      exact timersOK_chat_dispatch h0
  | some pr =>
      simp only [run_chat_step, hm]
      by_cases hp : 0 < p.permissions
      · rw [if_pos hp]
        have hb2 : ¬(pr.1 = "start" ∨ pr.1 = "unlock") := by
          simp [benign, hm, hp] at hb
          simpa using hb
        exact timersOK_admin_run h0 (fun hq => hb2 (Or.inl hq))
          (fun hq => hb2 (Or.inr hq))
      · rw [if_neg hp]
        exact timersOK_chat_dispatch h0

/-- Any step made by an event that is not an admin `start`/`unlock`
invocation preserves the timer discipline. -/
theorem timersOK_step {env : Env} {s : GameState} {e : Event}
    (h : timersOK s) (hb : benign e = true) : timersOK (stepSt env s e) := by
  cases e with
  | chat p m now => exact timersOK_run_chat h hb
  | setPlayers n now => exact ⟨h.1, h.2⟩
  | timerFire tid now =>
      simp only [stepSt, stepFn]
      cases hf : s.pending.find? (fun t => t.tid == tid) with
      | none => exact h
      | some t =>
          have hpred : (t.tid == tid) = true := by
            have hx := List.find?_some hf
            simpa using hx
          have hmem : t ∈ s.pending := List.mem_of_find?_eq_some hf
          have hfil : s.pending.filter (fun u => u.tid != tid) = [] := by
            rcases h.1 with h1 | ⟨t2, hp, ht⟩
            · rw [h1] at hmem
              simp at hmem
            · rw [hp] at hmem ⊢
              have ht2 : t = t2 := by simpa using hmem
              simp [List.filter, bne, hpred, ← ht2]
          cases t with
          | mk tid0 kind0 sched0 dur0 =>
              cases kind0 with
              | delay nr =>
                  refine timersOK_delay_fire now ?_
                  simpa using hfil
              | roundTimeout rid =>
                  refine timersOK_round_timeout_fire now ?_
                  simpa using hfil

/-- Along any trace of valid events avoiding the admin `start` and `unlock`
commands, every reachable state satisfies the timer discipline. -/
theorem timersOK_reachable {env : Env} {s : GameState}
    (h : ReachableP env benign s) : timersOK s := by
  induction h with
  | init t0 => exact timersOK_of_nil rfl
  | step hr hv hb ih => exact timersOK_step ih hb

/-- C2 (amended): along every trace that avoids the admin `start` and
`unlock` commands, at most one outstanding timer exists at any instant —
every such step that schedules a new timer cancels or clears the previous
one first.  (The admin `start` command schedules a delay without cancelling
the pending round timer, and `unlock` re-enables `!start` with a live
round timer, so the unrestricted claim fails; see the counterexample.) -/
theorem c2_single_timer_outside_admin_start (env : Env) (s : GameState)
    (h : ReachableP env benign s) : s.pending.length ≤ 1 := by
  rcases (timersOK_reachable h).1 with h1 | ⟨t, hp, _⟩
  · simp [h1]
  · simp [hp]

/-- The live-round state `g3` is reachable through benign events only. -/
theorem breach_g3 : ReachableP envAll benign g3 :=
  ReachableP.step (ReachableP.step (ReachableP.step (ReachableP.init 0)
    (by with_unfolding_all decide) rfl) (by with_unfolding_all decide) rfl)
    (by with_unfolding_all decide) rfl

/-- Witness for C2's amended theorem at the benign-reachable state `g3`. -/
theorem c2_single_timer_outside_admin_start_witness : g3.pending.length ≤ 1 :=
  c2_single_timer_outside_admin_start envAll g3 breach_g3

/-- Cancelling the stored handle preserves the round data invariants. -/
theorem roundInv_cancel_timeout {s : GameState} (h : roundInv s) :
    roundInv (cancel_timeout s) := by
  cases hts : s.timeout <;> simpa [cancel_timeout, hts, roundInv] using h

/-- Scheduling the inter-round delay preserves the round data invariants. -/
theorem roundInv_delay_sched {s : GameState} (nr : Bool) (now : ℚ)
    (h : roundInv s) : roundInv (delay_sched s nr now).1 := by
  refine ⟨by simp [delay_sched], ?_, ?_⟩
  · intro hr
    exact h.2.1 (by simpa [delay_sched] using hr)
  · intro r hr hs
    exact h.2.2 r (by simpa [delay_sched] using hr) hs

/-- Starting a round establishes the round data invariants outright. -/
theorem roundInv_start_new_round (s : GameState) (now : ℚ) :
    roundInv (start_new_round s now).1 := by
  refine ⟨by simp [start_new_round], by simp [start_new_round], ?_⟩
  intro r hr hs
  rw [show (start_new_round s now).1.round = some (Round.new s.next_round_id s.round_start now) by simp [start_new_round]] at hr
  simp at hr
  rw [← hr] at hs
  simp [Round.new] at hs

/-- Ending a round preserves the solver invariant and re-establishes the
rest. -/
theorem roundInv_round_end {s : GameState} (now : ℚ)
    (h3 : ∀ r : RoundRec, s.round = some r → r.solved = true → r.solverName.isSome) :
    roundInv (round_end s now).1 := by
  refine ⟨by simp [round_end, delay_sched], by simp [round_end, delay_sched], ?_⟩
  intro r hr hs
  exact h3 r (by simpa [round_end, delay_sched] using hr) hs

/-- The solved-round path preserves the round data invariants. -/
theorem roundInv_round_solved {s : GameState} (p : Player) (now : ℚ)
    (h : roundInv s) : roundInv (round_solved s p now).1 := by
  cases hr : s.round with
  | none =>
      refine ⟨by simp [round_solved, hr], ?_, ?_⟩
      · intro hx
        rw [show (round_solved s p now).1.round = none by simp [round_solved, hr]] at hx
        simp at hx
      · intro r2 hx
        rw [show (round_solved s p now).1.round = none by simp [round_solved, hr]] at hx
        simp at hx
  | some r =>
      simp only [round_solved, hr]
      refine roundInv_round_end now ?_
      intro r2 hr2 _
      simp at hr2
      rw [← hr2]
      simp [RoundRec.end_round, RoundRec.solved_by]

/-- Stopping the game preserves the round data invariants. -/
theorem roundInv_stop_game {s : GameState} (reason : Option String)
    (lock : Bool) (h : roundInv s) : roundInv (stop_game s reason lock).1 := by
  have hc := roundInv_cancel_timeout h
  refine ⟨?_, ?_, ?_⟩
  · intro hq
    rw [show (stop_game s reason lock).1.state = (if lock then Phase.locked else Phase.idle) by simp [stop_game]] at hq
    cases lock <;> simp at hq
  · intro hx
    exact hc.2.1 (by simpa [stop_game] using hx)
  · intro r hx hs2
    exact hc.2.2 r (by simpa [stop_game] using hx) hs2

/-- Skipping to the next round preserves the round data invariants. -/
theorem roundInv_next_round {s : GameState} (now : ℚ) (h : roundInv s) :
    roundInv (next_round s now).1 := by
  unfold next_round
  split
  · exact roundInv_start_new_round (cancel_timeout s) now
  · exact h

/-- `get_hint` preserves the round data invariants. -/
theorem roundInv_get_hint {s : GameState} (now : ℚ) (h : roundInv s) :
    roundInv (get_hint s now).1 := by
  have hf := get_hint_frame s now
  unfold roundInv at h ⊢
  rw [hf.2.2.1, hf.2.2.2.1, hf.2.2.2.2.1]
  exact h

/-- The round-timeout continuation preserves the round data invariants. -/
theorem roundInv_round_timeout_fire {s : GameState} (now : ℚ)
    (h : roundInv s) : roundInv (round_timeout_fire s now).1 := by
  cases hr : s.round with
  | none =>
      simp only [round_timeout_fire, hr]
      exact h
  | some r =>
      simp only [round_timeout_fire, hr]
      refine roundInv_round_end now ?_
      intro r2 hr2 hs2
      simp at hr2
      rw [← hr2] at hs2 ⊢
      simp only [RoundRec.end_round] at hs2 ⊢
      exact h.2.2 r hr hs2

/-- The admin handler preserves the round data invariants (all four
commands included). -/
theorem roundInv_admin_run {env : Env} {s : GameState} {pid : ℕ}
    {cmd : String} {args : List String} {now : ℚ} (h : roundInv s) :
    roundInv (AdminCommand.run env s pid cmd args now).1 := by
  unfold AdminCommand.run
  repeat' split
  all_goals first
    | exact h
    | exact roundInv_next_round now h
    | exact roundInv_stop_game (some "Stopped by administrator.")
        (args.contains "lock") h
    | exact roundInv_delay_sched true now h
    | -- the unlock branch: phase Idle, round and timer untouched
      exact ⟨by simp [AdminCommand.unlock], fun hx => h.2.1 hx,
        fun r hx hs2 => h.2.2 r hx hs2⟩

/-- The phase-dispatched chat paths preserve the round data invariants. -/
theorem roundInv_chat_dispatch {s : GameState} {p : Player} {m : Msg}
    {now : ℚ} (h : roundInv s) : roundInv (chat_dispatch s p m now).1 := by
  unfold chat_dispatch
  cases hs : s.state with
  | question =>
      by_cases hc : m.correct = true
      · rw [if_pos hc]
        exact roundInv_round_solved p now (roundInv_cancel_timeout h)
      · rw [if_neg hc]
        by_cases hh : m.isHint = true
        · rw [if_pos hh]
          exact roundInv_get_hint now h
        · rw [if_neg hh]
          exact h
  | waiting =>
      by_cases hn : (m.isNext && has_streak s p) = true
      · rw [if_pos hn]
        exact roundInv_next_round now h
      · rw [if_neg hn]
        exact h
  | idle =>
      by_cases hst : m.isStart = true
      · rw [if_pos hst]
        exact roundInv_delay_sched true now h
      · rw [if_neg hst]
        exact h
  | locked => exact h

/-- One chat iteration preserves the round data invariants. -/
theorem roundInv_run_chat {env : Env} {s : GameState} {p : Player} {m : Msg}
    {now : ℚ} (h : roundInv s) : roundInv (run_chat_step env s p m now).1 := by
  have h0 : roundInv { s with last_action := now, clock := now } := h
  cases hm : m.adminCmd with
  | none =>
      simp only [run_chat_step, hm]
      exact roundInv_chat_dispatch h0
  | some pr =>
      simp only [run_chat_step, hm]
      by_cases hp : 0 < p.permissions
      · rw [if_pos hp]
        exact roundInv_admin_run h0
      · rw [if_neg hp]
        exact roundInv_chat_dispatch h0

/-- The delay continuation preserves the round data invariants. -/
theorem roundInv_delay_fire {s : GameState} (now : ℚ) (h : roundInv s) :
    roundInv (delay_fire s now).1 := by
  unfold delay_fire
  split
  · exact roundInv_stop_game none false h
  · exact roundInv_start_new_round s now

/-- Every step preserves the round data invariants. -/
theorem roundInv_step {env : Env} {s : GameState} {e : Event}
    (h : roundInv s) : roundInv (stepSt env s e) := by
  cases e with
  | chat p m now => exact roundInv_run_chat h
  | setPlayers n now => exact ⟨h.1, h.2.1, h.2.2⟩
  | timerFire tid now =>
      simp only [stepSt, stepFn]
      cases hf : s.pending.find? (fun t => t.tid == tid) with
      | none => exact h
      | some t =>
          cases t with
          | mk tid0 kind0 sched0 dur0 =>
              cases kind0 with
              | delay nr => exact roundInv_delay_fire now h
              | roundTimeout rid =>
                  exact roundInv_round_timeout_fire now h

/-- Every reachable state satisfies the round data invariants. -/
theorem roundInv_reachable {env : Env} {s : GameState}
    (h : Reachable env s) : roundInv s := by
  induction h with
  | init t0 =>
      refine ⟨?_, ?_, ?_⟩ <;>
        simp [GameState.init, _reset_hints, _reset_streak]
  | step hr hv hb ih => exact roundInv_step ih

/-- C6 (amended): `get_round_info` is a pure projection (it is a function
of the state and the clock, mutating nothing by construction), and in every
reachable state it computes a result without failing — except in the one
reachable configuration excluded by the hypothesis: Waiting with no round
record yet, which occurs during the very first new-round delay (see the
counterexample). -/
theorem c6_round_info_total (env : Env) (s : GameState) (now : ℚ)
    (h : Reachable env s) (hw : s.state = Phase.waiting → s.round ≠ none) :
    (get_round_info s now).isSome = true := by
  have hi := roundInv_reachable h
  unfold get_round_info
  cases hs : s.state with
  | idle => simp
  | locked => simp
  | question =>
      have h1 : s.round.isSome := hi.1 hs
      obtain ⟨r, hr⟩ := Option.isSome_iff_exists.mp h1
      obtain ⟨ts, hts⟩ := Option.isSome_iff_exists.mp (hi.2.1 h1)
      simp [hr, hts]
  | waiting =>
      have h1 : s.round.isSome := by
        cases hro : s.round with
        | none => exact absurd hro (hw hs)
        | some r => simp
      obtain ⟨r, hr⟩ := Option.isSome_iff_exists.mp h1
      obtain ⟨ts, hts⟩ := Option.isSome_iff_exists.mp (hi.2.1 h1)
      cases hsol : r.solved with
      | false => simp [hr, hts, hsol]
      | true =>
          obtain ⟨nm, hnm⟩ := Option.isSome_iff_exists.mp (hi.2.2 r hr hsol)
          simp [hr, hts, hsol, hnm]

/-- Witness for C6's amended theorem at the reachable initial state. -/
theorem c6_round_info_total_witness :
    (get_round_info (GameState.init 0) 0).isSome = true :=
  c6_round_info_total envAll (GameState.init 0) 0 (ReachableP.init 0)
    (fun hx => absurd hx (by with_unfolding_all decide))

/-- C3 (amended): the round-timeout callback performs no staleness check.
A timer whose handle is no longer pending (it was cancelled, or already
ran) does nothing when its expiry is delivered — cancellation is the only
protection against stale fires.  But whenever the timer is still pending,
the callback runs unconditionally, regardless of the current phase or of
whether the round still matches the one it was scheduled for: it ends the
then-current round, enters Waiting, resets the display timer and schedules
a new delay. -/
theorem c3_stale_fire_unchecked (env : Env) (tid : ℕ) (now : ℚ) :
    (∀ s : GameState, s.pending.find? (fun u => u.tid == tid) = none →
      stepFn env s (Event.timerFire tid now) = (s, [])) ∧
    (∀ (s : GameState) (t : Timer) (rid : ℕ) (r : RoundRec),
      s.pending.find? (fun u => u.tid == tid) = some t →
      t.kind = TimerKind.roundTimeout rid →
      s.round = some r →
      (stepSt env s (Event.timerFire tid now)).state = Phase.waiting ∧
      (stepSt env s (Event.timerFire tid now)).round =
        some (RoundRec.end_round r) ∧
      (stepSt env s (Event.timerFire tid now)).timer_start = some now) := by
  constructor
  · intro s hf
    simp [stepFn, hf]
  · intro s t rid r hf hk hr
    refine ⟨?_, ?_, ?_⟩ <;>
      simp [stepSt, stepFn, hf, hk, round_timeout_fire, hr, round_end,
        delay_sched, RoundRec.end_round]

/-- Witness for C3's amended theorem: the stale round timer of `g4` fires
at t = 50 and unconditionally ends round #1 and re-enters Waiting. -/
theorem c3_stale_fire_unchecked_witness :
    (stepSt envAll g4 (Event.timerFire 1 50)).state = Phase.waiting ∧
    (stepSt envAll g4 (Event.timerFire 1 50)).round =
      some (RoundRec.end_round (Round.new 1 (some 0) 5)) ∧
    (stepSt envAll g4 (Event.timerFire 1 50)).timer_start = some 50 :=
  (c3_stale_fire_unchecked envAll 1 50).2 g4
    { tid := 1, kind := TimerKind.roundTimeout 1, sched := 5, dur := 45 } 1
    (Round.new 1 (some 0) 5)
    (by with_unfolding_all decide) rfl (by with_unfolding_all decide)
